import Mathlib

/-!
Shallow embedding of `src/app.py` (Multi-File Data Analysis App): the
`process_data` ingestion pipeline (lines 12-34) and the Funding Status
analysis block (line 66).  Decoded pandas DataFrames are modelled as tables
of rows, a row being an association list from column name to cell value;
file decoding (`pd.read_excel` / `pd.read_csv`) is modelled at the level of
its result, a file's content being either spreadsheet bytes decoding to a
table, comma-separated bytes decoding to a table, or bytes neither reader
accepts.  Empty cells decode to the missing value (pandas `NaN`), as both
readers turn empty fields into `NaN`.
-/

deriving instance DecidableEq for Except

namespace App

/-- A cell value of a decoded table: missing (pandas NaN), numeric, or
text.  Numeric cells carry exact integers; the claims under study concern
the structure of the pipeline, not the numeric subdomain, and exact
signed arithmetic is the reading the spec gives the `Difference` column. -/
inductive Value where
  | na : Value
  | num : Int → Value
  | str : String → Value
deriving DecidableEq, Repr

/-- One decoded row: an association list from column name to cell value. -/
abbrev Row := List (String × Value)

/-- A decoded DataFrame: its column list and its rows. -/
structure Table where
  cols : List String
  rows : List Row
deriving DecidableEq, Repr

/-- Reading a cell by column name (first matching key).  An absent key reads
as missing, which also models the NaN fill that `pd.concat` applies to
columns absent from some source files. -/
def getVal : Row → String → Value
  | [], _ => .na
  | (c, v) :: r, c' => if c = c' then v else getVal r c'

/-- Column assignment on one row, as in the pandas statement `df[c] = ...`:
an existing column is overwritten in place, a new column is appended at the
end. -/
def setVal (r : Row) (c : String) (v : Value) : Row :=
  if r.any (fun p => p.1 = c) then r.map (fun p => if p.1 = c then (c, v) else p)
  else r ++ [(c, v)]

/-- Column-list effect of the assignment `df[c] = ...`. -/
def setCol (cols : List String) (c : String) : List String :=
  if c ∈ cols then cols else cols ++ [c]

/-- Python exceptions that escape `process_data` uncaught.  A pandas
TypeError raised by the column subtraction reports only the operand types;
the optional field records which (file, column) the error identifies, and
the raising site in the source attaches none. -/
inductive PyExc where
  | typeError : Option (String × String) → PyExc
  | valueError : PyExc
  | readError : PyExc
deriving DecidableEq, Repr

/-- File content as the readers see it: bytes decoding as a spreadsheet to
a table, bytes decoding as comma-separated text to a table, or bytes that
neither reader accepts. -/
inductive Content where
  | xlsx : Table → Content
  | csv : Table → Content
  | other : Content
deriving DecidableEq, Repr

/-- An uploaded file: declared name plus content. -/
structure RawFile where
  name : String
  content : Content
deriving DecidableEq, Repr

/-- Line 17, `pd.read_excel(file, engine='openpyxl')`: succeeds exactly on
spreadsheet content. -/
def read_excel : Content → Except PyExc Table
  | .xlsx t => .ok t
  | _ => .error .readError

/-- Line 19, `pd.read_csv(file)`: succeeds exactly on comma-separated
content. -/
def read_csv : Content → Except PyExc Table
  | .csv t => .ok t
  | _ => .error .readError

/-- Python's `s.endswith(t)`, computed on the character lists. -/
def pyEndsWith (s t : String) : Bool :=
  t.data.isSuffixOf s.data

/-- Lines 16-19: dispatch on the declared name suffix.  A name ending in
`.xlsx` selects the spreadsheet reader; every other name selects the
comma-separated reader. -/
def readFile (f : RawFile) : Except PyExc Table :=
  if pyEndsWith f.name ".xlsx" then read_excel f.content else read_csv f.content

/-- Line 21: the required column set. -/
def required_columns : List String :=
  ["Code", "LBType", "Tot", "TotExp", "Sector", "District"]

/-- Line 23: the set difference `required_columns - set(df.columns)`. -/
def missingColumns (cols : List String) : List String :=
  required_columns.filter (fun c => c ∉ cols)

/-- Line 27, `df.dropna(subset=['Code'])`: drop every row whose Code cell
is missing. -/
def dropNullCode (t : Table) : Table :=
  ⟨t.cols, t.rows.filter (fun r => getVal r "Code" ≠ .na)⟩

/-- Elementwise subtraction of two cells with pandas semantics: NaN
propagates, and a text operand raises a TypeError that identifies neither
a file nor a column (its message names only the operand types). -/
def cellSub : Value → Value → Except PyExc Value
  | .str _, _ => .error (.typeError none)
  | _, .str _ => .error (.typeError none)
  | .na, _ => .ok .na
  | _, .na => .ok .na
  | .num a, .num b => .ok (.num (a - b))

/-- Line 30 on one row: compute `Tot - TotExp` and assign it to
`Difference`. -/
def subRow (r : Row) : Except PyExc Row :=
  (cellSub (getVal r "Tot") (getVal r "TotExp")).map (setVal r "Difference")

/-- The elementwise pass of the column subtraction: the first ill-typed
pair aborts with its TypeError. -/
def subRows : List Row → Except PyExc (List Row)
  | [] => .ok []
  | r :: rs =>
    match subRow r with
    | .error e => .error e
    | .ok r2 =>
      match subRows rs with
      | .error e => .error e
      | .ok rs2 => .ok (r2 :: rs2)

/-- Line 30, `df['Difference'] = df['Tot'] - df['TotExp']`. -/
def addDifference (t : Table) : Except PyExc Table :=
  (subRows t.rows).map (fun rs => ⟨setCol t.cols "Difference", rs⟩)

/-- Line 34, `pd.concat(all_data, ignore_index=True)`: raises ValueError on
an empty list; otherwise unions the columns in first-appearance order and
concatenates the rows in list order. -/
def pd_concat (ts : List Table) : Except PyExc Table :=
  match ts with
  | [] => .error .valueError
  | _ :: _ =>
    .ok ⟨((ts.map Table.cols).flatten).foldl
           (fun acc c => if c ∈ acc then acc else acc ++ [c]) [],
         (ts.map Table.rows).flatten⟩

/-- Result of a call to `process_data`: a table, the Python value None
returned after the `st.error` report of a schema failure (recording the
reported file name and missing column names), or an uncaught exception. -/
inductive ProcResult where
  | ok : Table → ProcResult
  | retNone : String → List String → ProcResult
  | raised : PyExc → ProcResult
deriving DecidableEq, Repr

/-- Lines 13-34: the per-file loop of `process_data` with its accumulator
`all_data`, followed by the final concatenation. -/
def processAux : List RawFile → List Table → ProcResult
  | [], all_data =>
    match pd_concat all_data with
    | .ok t => .ok t
    | .error e => .raised e
  | file :: files, all_data =>
    match readFile file with
    | .error e => .raised e
    | .ok df =>
      if missingColumns df.cols ≠ [] then
        .retNone file.name (missingColumns df.cols)
      else
        match addDifference (dropNullCode df) with
        | .error e => .raised e
        | .ok df2 => processAux files (all_data ++ [df2])

/-- Lines 12-34: `process_data(files)`. -/
def process_data (files : List RawFile) : ProcResult :=
  processAux files []

/-- Line 66, the classification cell:
`np.where(df['Tot'] == 0, 'Not Funded', 'Funded')` on one value.  NaN and
text compare unequal to 0 in pandas, so only a numeric 0 is Not Funded. -/
def fundingStatusCell (v : Value) : Value :=
  if v = .num 0 then .str "Not Funded" else .str "Funded"

/-- Line 66: the Funded vs Non-Funded analysis assigns the classification
column into the very table `process_data` returned, in place. -/
def addFundingStatus (t : Table) : Table :=
  ⟨setCol t.cols "Funding Status",
   t.rows.map (fun r => setVal r "Funding Status" (fundingStatusCell (getVal r "Tot")))⟩

/-- The per-file table produced when every step of the loop body succeeds
on a file (read, schema check, clean, subtraction); `none` when any step
errors out. -/
def cleanFile (f : RawFile) : Option Table :=
  match readFile f with
  | .error _ => none
  | .ok df =>
    if missingColumns df.cols ≠ [] then none
    else
      match addDifference (dropNullCode df) with
      | .error _ => none
      | .ok df2 => some df2

/-- The augmented form of one kept row: line 30 restricted to that row
(on rows where the subtraction succeeds). -/
def augRow (r : Row) : Row :=
  match cellSub (getVal r "Tot") (getVal r "TotExp") with
  | .ok v => setVal r "Difference" v
  | .error _ => r

/-- The rows one file contributes to the unified table: its decoded rows in
source order, minus the null-Code rows, each augmented with Difference. -/
def fileRows (f : RawFile) : List Row :=
  match readFile f with
  | .error _ => []
  | .ok df => ((dropNullCode df).rows).map augRow

/-- Whether a call to `process_data` handed back a table. -/
def isOkResult : ProcResult → Bool
  | .ok _ => true
  | _ => false

/-- Whether an intermediate pandas operation succeeded. -/
def exceptIsOk : Except PyExc Table → Bool
  | .ok _ => true
  | _ => false

/-- Whether a raised exception identifies a source file and column. -/
def identifiesSource : PyExc → Bool
  | .typeError (some _) => true
  | _ => false

/-- Whether a cell holds text. -/
def isStrVal : Value → Bool
  | .str _ => true
  | _ => false

/-- Whether a row feeds a text operand into the line 30 subtraction. -/
def rowHasStrOperand (r : Row) : Bool :=
  isStrVal (getVal r "Tot") || isStrVal (getVal r "TotExp")

/-! Concrete inputs and outputs used by witnesses and counterexamples.
Files A and B are the worked example of the spec (section 8). -/

/-- Row of example file A. -/
def exRowA : Row :=
  [("Code", .str "1"), ("LBType", .str "X"), ("Tot", .num 100),
   ("TotExp", .num 80), ("Sector", .str "S1"), ("District", .str "D1")]

/-- Decoded table of example file A. -/
def exTableA : Table := ⟨required_columns, [exRowA]⟩

/-- Example file A, a comma-separated file. -/
def exFileA : RawFile := ⟨"a.csv", .csv exTableA⟩

/-- First row of example file B: its Code cell is empty, hence decodes to
missing. -/
def exRowB1 : Row :=
  [("Code", .na), ("LBType", .str "Y"), ("Tot", .num 0),
   ("TotExp", .num 0), ("Sector", .str "S2"), ("District", .str "D2")]

/-- Second row of example file B. -/
def exRowB2 : Row :=
  [("Code", .str "2"), ("LBType", .str "Y"), ("Tot", .num 50),
   ("TotExp", .num 50), ("Sector", .str "S2"), ("District", .str "D2")]

/-- Decoded table of example file B. -/
def exTableB : Table := ⟨required_columns, [exRowB1, exRowB2]⟩

/-- Example file B, a spreadsheet file. -/
def exFileB : RawFile := ⟨"b.xlsx", .xlsx exTableB⟩

/-- First output row of processing files A and B. -/
def exOutRow1 : Row :=
  [("Code", .str "1"), ("LBType", .str "X"), ("Tot", .num 100),
   ("TotExp", .num 80), ("Sector", .str "S1"), ("District", .str "D1"),
   ("Difference", .num 20)]

/-- Second output row of processing files A and B. -/
def exOutRow2 : Row :=
  [("Code", .str "2"), ("LBType", .str "Y"), ("Tot", .num 50),
   ("TotExp", .num 50), ("Sector", .str "S2"), ("District", .str "D2"),
   ("Difference", .num 0)]

/-- The unified table for files A and B. -/
def exUnified : Table :=
  ⟨["Code", "LBType", "Tot", "TotExp", "Sector", "District", "Difference"],
   [exOutRow1, exOutRow2]⟩

/-- A decoded table missing the Sector column. -/
def exTableMissing : Table :=
  ⟨["Code", "LBType", "Tot", "TotExp", "District"],
   [[("Code", .str "5"), ("LBType", .str "Z"), ("Tot", .num 1),
     ("TotExp", .num 1), ("District", .str "D3")]]⟩

/-- A comma-separated file missing the Sector column. -/
def exFileMissing : RawFile := ⟨"m.csv", .csv exTableMissing⟩

/-- A row whose Tot cell is missing. -/
def exRowNullTot : Row :=
  [("Code", .str "3"), ("LBType", .str "X"), ("Tot", .na),
   ("TotExp", .num 5), ("Sector", .str "S1"), ("District", .str "D1")]

/-- A schema-valid comma-separated file with a missing Tot value. -/
def exFileNullTot : RawFile := ⟨"n.csv", .csv ⟨required_columns, [exRowNullTot]⟩⟩

/-- The output row for the missing-Tot file: its Difference is missing. -/
def exNullTotRow : Row :=
  [("Code", .str "3"), ("LBType", .str "X"), ("Tot", .na),
   ("TotExp", .num 5), ("Sector", .str "S1"), ("District", .str "D1"),
   ("Difference", .na)]

/-- The unified table for the missing-Tot file. -/
def exNullTotOut : Table :=
  ⟨["Code", "LBType", "Tot", "TotExp", "Sector", "District", "Difference"],
   [exNullTotRow]⟩

/-- A schema-valid row with text in the Tot column. -/
def exRowBadType : Row :=
  [("Code", .str "9"), ("LBType", .str "X"), ("Tot", .str "abc"),
   ("TotExp", .num 5), ("Sector", .str "S1"), ("District", .str "D1")]

/-- A schema-valid decoded table with text in its Tot column. -/
def exTableBadType : Table := ⟨required_columns, [exRowBadType]⟩

/-- A comma-separated file with text in its Tot column. -/
def exFileBadType : RawFile := ⟨"t.csv", .csv exTableBadType⟩

/-- A file whose declared suffix is neither .xlsx nor .csv but whose bytes
are well-formed comma-separated text. -/
def exFileTxt : RawFile := ⟨"data.txt", .csv exTableA⟩

/-- The missing-Tot output row after the Funding Status assignment. -/
def exFsRow : Row :=
  [("Code", .str "3"), ("LBType", .str "X"), ("Tot", .na),
   ("TotExp", .num 5), ("Sector", .str "S1"), ("District", .str "D1"),
   ("Difference", .na), ("Funding Status", .str "Funded")]

/-! Lemmas about cell reads after a column assignment. -/

theorem getVal_cons (pc : String) (pv : Value) (r : Row) (c : String) :
    getVal ((pc, pv) :: r) c = if pc = c then pv else getVal r c := rfl

theorem getVal_map_set_ne (r : Row) (c c' : String) (v : Value) (h : c' ≠ c) :
    getVal (r.map (fun p => if p.1 = c then (c, v) else p)) c' = getVal r c' := by
  induction r with
  | nil => rfl
  | cons p r ih =>
    obtain ⟨pc, pv⟩ := p
    rw [List.map_cons]
    by_cases hp : pc = c
    · rw [show (if (pc, pv).1 = c then (c, v) else (pc, pv)) = (c, v) from if_pos hp,
        getVal_cons, getVal_cons, if_neg (Ne.symm h), ih,
        if_neg (fun hh : pc = c' => h (hh ▸ hp ▸ rfl))]
    · rw [show (if (pc, pv).1 = c then (c, v) else (pc, pv)) = (pc, pv) from if_neg hp,
        getVal_cons, getVal_cons, ih]

theorem getVal_append_single_ne (r : Row) (c c' : String) (v : Value) (h : c' ≠ c) :
    getVal (r ++ [(c, v)]) c' = getVal r c' := by
  induction r with
  | nil =>
    rw [List.nil_append, getVal_cons, if_neg (Ne.symm h)]
  | cons p r ih =>
    obtain ⟨pc, pv⟩ := p
    rw [List.cons_append, getVal_cons, getVal_cons, ih]

theorem getVal_setVal_ne (r : Row) (c c' : String) (v : Value) (h : c' ≠ c) :
    getVal (setVal r c v) c' = getVal r c' := by
  unfold setVal
  split
  · exact getVal_map_set_ne r c c' v h
  · exact getVal_append_single_ne r c c' v h

theorem getVal_map_set_eq (r : Row) (c : String) (v : Value)
    (h : r.any (fun p => p.1 = c) = true) :
    getVal (r.map (fun p => if p.1 = c then (c, v) else p)) c = v := by
  induction r with
  | nil => simp at h
  | cons p r ih =>
    obtain ⟨pc, pv⟩ := p
    rw [List.map_cons]
    by_cases hp : pc = c
    · rw [show (if (pc, pv).1 = c then (c, v) else (pc, pv)) = (c, v) from if_pos hp,
        getVal_cons, if_pos rfl]
    · rw [show (if (pc, pv).1 = c then (c, v) else (pc, pv)) = (pc, pv) from if_neg hp,
        getVal_cons, if_neg hp]
      apply ih
      simp only [List.any_cons, Bool.or_eq_true, decide_eq_true_eq] at h
      rcases h with h | h
      · exact absurd h hp
      · exact h

theorem getVal_append_single_eq (r : Row) (c : String) (v : Value)
    (h : r.any (fun p => p.1 = c) = false) :
    getVal (r ++ [(c, v)]) c = v := by
  induction r with
  | nil => rw [List.nil_append, getVal_cons, if_pos rfl]
  | cons p r ih =>
    obtain ⟨pc, pv⟩ := p
    simp only [List.any_cons, Bool.or_eq_false_iff, decide_eq_false_iff_not] at h
    rw [List.cons_append, getVal_cons, if_neg h.1]
    exact ih (by simpa using h.2)

theorem getVal_setVal_eq (r : Row) (c : String) (v : Value) :
    getVal (setVal r c v) c = v := by
  unfold setVal
  split
  · next h => exact getVal_map_set_eq r c v h
  · next h => exact getVal_append_single_eq r c v (Bool.eq_false_iff.mpr h)

/-! Lemmas about the elementwise column subtraction. -/

theorem cellSub_err (v1 v2 : Value) (e : PyExc) (h : cellSub v1 v2 = .error e) :
    e = .typeError none := by
  cases v1 <;> cases v2 <;> simp [cellSub] at h <;> exact h.symm

theorem subRow_err (r : Row) (e : PyExc) (h : subRow r = .error e) :
    e = .typeError none := by
  unfold subRow at h
  cases hc : cellSub (getVal r "Tot") (getVal r "TotExp") with
  | error e2 =>
    rw [hc] at h
    simp only [Except.map] at h
    injection h with h
    rw [← h]
    exact cellSub_err _ _ _ hc
  | ok v =>
    rw [hc] at h
    simp only [Except.map] at h
    exact Except.noConfusion h

theorem subRow_ok (r r2 : Row) (h : subRow r = .ok r2) :
    ∃ v, cellSub (getVal r "Tot") (getVal r "TotExp") = .ok v ∧
      r2 = setVal r "Difference" v := by
  unfold subRow at h
  cases hc : cellSub (getVal r "Tot") (getVal r "TotExp") with
  | error e2 =>
    rw [hc] at h
    simp only [Except.map] at h
    exact Except.noConfusion h
  | ok v =>
    rw [hc] at h
    simp only [Except.map] at h
    injection h with h
    exact ⟨v, rfl, h.symm⟩

theorem subRow_bad (r : Row) (hb : rowHasStrOperand r = true) :
    subRow r = .error (.typeError none) := by
  unfold subRow rowHasStrOperand at *
  cases h1 : getVal r "Tot" <;> cases h2 : getVal r "TotExp" <;>
    rw [h1, h2] at hb <;> simp [isStrVal] at hb <;> rfl

theorem subRow_good (r : Row) (hb : rowHasStrOperand r = false) :
    ∃ r2, subRow r = .ok r2 := by
  unfold subRow rowHasStrOperand at *
  cases h1 : getVal r "Tot" <;> cases h2 : getVal r "TotExp" <;>
    rw [h1, h2] at hb <;> simp [isStrVal] at hb <;> exact ⟨_, rfl⟩

theorem subRows_ok_mem (rows rs : List Row) (h : subRows rows = .ok rs)
    (r : Row) (hr : r ∈ rs) :
    ∃ r0 ∈ rows, ∃ v, cellSub (getVal r0 "Tot") (getVal r0 "TotExp") = .ok v ∧
      r = setVal r0 "Difference" v := by
  induction rows generalizing rs with
  | nil =>
    unfold subRows at h
    simp only [Except.ok.injEq] at h
    rw [← h] at hr
    simp at hr
  | cons r0 rows ih =>
    unfold subRows at h
    cases h1 : subRow r0 with
    | error e =>
      rw [h1] at h
      simp at h
    | ok r2 =>
      rw [h1] at h
      cases h2 : subRows rows with
      | error e =>
        rw [h2] at h
        simp at h
      | ok rs2 =>
        rw [h2] at h
        simp only [Except.ok.injEq] at h
        rw [← h] at hr
        rcases List.mem_cons.mp hr with hr | hr
        · obtain ⟨v, hcv, heq⟩ := subRow_ok r0 r2 h1
          exact ⟨r0, List.mem_cons_self r0 rows, v, hcv, hr ▸ heq⟩
        · obtain ⟨r0h, hmem, v, hcv, heq⟩ := ih rs2 h2 hr
          exact ⟨r0h, List.mem_cons_of_mem r0 hmem, v, hcv, heq⟩

theorem subRows_ok_map (rows rs : List Row) (h : subRows rows = .ok rs) :
    rs = rows.map augRow := by
  induction rows generalizing rs with
  | nil =>
    unfold subRows at h
    simp only [Except.ok.injEq] at h
    rw [← h, List.map_nil]
  | cons r0 rows ih =>
    unfold subRows at h
    cases h1 : subRow r0 with
    | error e =>
      rw [h1] at h
      simp at h
    | ok r2 =>
      rw [h1] at h
      cases h2 : subRows rows with
      | error e =>
        rw [h2] at h
        simp at h
      | ok rs2 =>
        rw [h2] at h
        simp only [Except.ok.injEq] at h
        obtain ⟨v, hcv, heq⟩ := subRow_ok r0 r2 h1
        rw [← h, List.map_cons, ← ih rs2 h2]
        unfold augRow
        rw [hcv, heq]

theorem subRows_err_of_bad (rows : List Row)
    (h : rows.any rowHasStrOperand = true) :
    subRows rows = .error (.typeError none) := by
  induction rows with
  | nil => simp at h
  | cons r rows ih =>
    rw [List.any_cons, Bool.or_eq_true] at h
    cases hs : subRow r with
    | error e =>
      have he := subRow_err r e hs
      unfold subRows
      rw [hs, he]
    | ok r2 =>
      have hb : rowHasStrOperand r = false := by
        cases hbc : rowHasStrOperand r
        · rfl
        · rw [subRow_bad r hbc] at hs
          cases hs
      have h2 : rows.any rowHasStrOperand = true := by
        rcases h with h | h
        · rw [hb] at h
          cases h
        · exact h
      unfold subRows
      rw [hs, ih h2]

theorem addDifference_ok (t t2 : Table) (h : addDifference t = .ok t2) :
    t2.cols = setCol t.cols "Difference" ∧ t2.rows = t.rows.map augRow := by
  unfold addDifference at h
  cases hs : subRows t.rows with
  | error e =>
    rw [hs] at h
    simp only [Except.map] at h
    exact Except.noConfusion h
  | ok rs =>
    rw [hs] at h
    simp only [Except.map] at h
    injection h with h
    rw [← h]
    exact ⟨rfl, subRows_ok_map _ _ hs⟩

theorem addDifference_err_of_bad (t : Table)
    (h : t.rows.any rowHasStrOperand = true) :
    addDifference t = .error (.typeError none) := by
  unfold addDifference
  rw [subRows_err_of_bad _ h]
  rfl

/-! Lemmas about the per-file loop and the whole pipeline. -/

theorem processAux_cons_clean (f : RawFile) (tf : Table) (fs : List RawFile)
    (acc : List Table) (h : cleanFile f = some tf) :
    processAux (f :: fs) acc = processAux fs (acc ++ [tf]) := by
  unfold cleanFile at h
  simp only [processAux]
  cases hr : readFile f with
  | error e =>
    rw [hr] at h
    exact Option.noConfusion h
  | ok df =>
    simp only [hr] at h ⊢
    by_cases hm : missingColumns df.cols = []
    · rw [if_neg (fun hc => hc hm)] at h ⊢
      cases ha : addDifference (dropNullCode df) with
      | error e =>
        simp only [ha] at h
        exact Option.noConfusion h
      | ok df2 =>
        simp only [ha] at h ⊢
        injection h with h
        rw [h]
    · rw [if_pos hm] at h
      exact Option.noConfusion h

theorem addDifference_ok_subRows (t t2 : Table) (h : addDifference t = .ok t2) :
    subRows t.rows = .ok t2.rows := by
  unfold addDifference at h
  cases hs : subRows t.rows with
  | error e =>
    rw [hs] at h
    simp only [Except.map] at h
    exact Except.noConfusion h
  | ok rs =>
    rw [hs] at h
    simp only [Except.map] at h
    injection h with h
    rw [← h]

theorem processAux_pre (pre : List RawFile) (hpre : ∀ f ∈ pre, (cleanFile f).isSome) :
    ∀ (rest : List RawFile) (acc : List Table), ∃ acc2,
      processAux (pre ++ rest) acc = processAux rest acc2 := by
  induction pre with
  | nil => intro rest acc; exact ⟨acc, rfl⟩
  | cons f pre ih =>
    intro rest acc
    obtain ⟨tf, htf⟩ := Option.isSome_iff_exists.mp (hpre f (List.mem_cons_self f pre))
    rw [List.cons_append, processAux_cons_clean f tf (pre ++ rest) acc htf]
    exact ih (fun g hg => hpre g (List.mem_cons_of_mem f hg)) rest (acc ++ [tf])

theorem processAux_ok_rows : ∀ (files : List RawFile) (acc : List Table) (t : Table),
    processAux files acc = .ok t →
    t.rows = (acc.map Table.rows).flatten ++ (files.map fileRows).flatten := by
  intro files
  induction files with
  | nil =>
    intro acc t h
    simp only [processAux] at h
    cases acc with
    | nil =>
      simp only [pd_concat] at h
      exact ProcResult.noConfusion h
    | cons t0 ts =>
      simp only [pd_concat] at h
      injection h with h
      rw [← h]
      simp
  | cons f fs ih =>
    intro acc t h
    simp only [processAux] at h
    cases hr : readFile f with
    | error e =>
      rw [hr] at h
      exact ProcResult.noConfusion h
    | ok df =>
      simp only [hr] at h
      by_cases hm : missingColumns df.cols = []
      · rw [if_neg (fun hc => hc hm)] at h
        cases ha : addDifference (dropNullCode df) with
        | error e =>
          simp only [ha] at h
          exact ProcResult.noConfusion h
        | ok df2 =>
          simp only [ha] at h
          have ht := ih (acc ++ [df2]) t h
          obtain ⟨hc2, hrw2⟩ := addDifference_ok _ _ ha
          have hfr : fileRows f = df2.rows := by
            unfold fileRows
            rw [hr, hrw2]
          rw [ht]
          simp [hfr, List.append_assoc]
      · rw [if_pos hm] at h
        exact ProcResult.noConfusion h

theorem processAux_ok_mem : ∀ (files : List RawFile) (acc : List Table) (t : Table),
    processAux files acc = .ok t → ∀ r ∈ t.rows,
    (∃ ta ∈ acc, r ∈ ta.rows) ∨
    (∃ r0, getVal r0 "Code" ≠ .na ∧ ∃ v,
      cellSub (getVal r0 "Tot") (getVal r0 "TotExp") = .ok v ∧
      r = setVal r0 "Difference" v) := by
  intro files
  induction files with
  | nil =>
    intro acc t h r hr
    simp only [processAux] at h
    cases acc with
    | nil =>
      simp only [pd_concat] at h
      exact ProcResult.noConfusion h
    | cons t0 ts =>
      simp only [pd_concat] at h
      injection h with h
      rw [← h] at hr
      left
      obtain ⟨l, hl, hrl⟩ := List.mem_flatten.mp hr
      obtain ⟨ta, hta, rfl⟩ := List.mem_map.mp hl
      exact ⟨ta, hta, hrl⟩
  | cons f fs ih =>
    intro acc t h r hr
    simp only [processAux] at h
    cases hrf : readFile f with
    | error e =>
      rw [hrf] at h
      exact ProcResult.noConfusion h
    | ok df =>
      simp only [hrf] at h
      by_cases hm : missingColumns df.cols = []
      · rw [if_neg (fun hc => hc hm)] at h
        cases ha : addDifference (dropNullCode df) with
        | error e =>
          simp only [ha] at h
          exact ProcResult.noConfusion h
        | ok df2 =>
          simp only [ha] at h
          rcases ih (acc ++ [df2]) t h r hr with ⟨ta, hta, hrta⟩ | hright
          · rcases List.mem_append.mp hta with hta | hta
            · exact Or.inl ⟨ta, hta, hrta⟩
            · right
              have hta2 : ta = df2 := by simpa using hta
              subst hta2
              have hs := addDifference_ok_subRows _ _ ha
              obtain ⟨r0, hr0mem, v, hcv, heq⟩ := subRows_ok_mem _ _ hs r hrta
              simp only [dropNullCode] at hr0mem
              have hmf := List.mem_filter.mp hr0mem
              exact ⟨r0, of_decide_eq_true hmf.2, v, hcv, heq⟩
          · exact Or.inr hright
      · rw [if_pos hm] at h
        exact ProcResult.noConfusion h

theorem processRowSpec (files : List RawFile) (t : Table) (r : Row)
    (hok : process_data files = .ok t) (hr : r ∈ t.rows) :
    getVal r "Code" ≠ .na ∧ ∃ v,
      cellSub (getVal r "Tot") (getVal r "TotExp") = .ok v ∧
      getVal r "Difference" = v := by
  have hm := processAux_ok_mem files [] t hok r hr
  rcases hm with ⟨ta, hta, _⟩ | ⟨r0, hc, v, hcv, rfl⟩
  · simp at hta
  · constructor
    · rw [getVal_setVal_ne _ _ _ _ (by decide)]
      exact hc
    · refine ⟨v, ?_, getVal_setVal_eq _ _ _⟩
      rw [getVal_setVal_ne _ _ _ _ (by decide), getVal_setVal_ne _ _ _ _ (by decide)]
      exact hcv

theorem missingColumns_toFinset (cols : List String) :
    (missingColumns cols).toFinset = required_columns.toFinset \ cols.toFinset := by
  ext c
  simp [missingColumns, List.mem_filter]

theorem cellSub_num (v1 v2 v : Value) (a b : Int) (h : cellSub v1 v2 = .ok v)
    (h1 : v1 = .num a) (h2 : v2 = .num b) : v = .num (a - b) := by
  subst h1
  subst h2
  simp only [cellSub, Except.ok.injEq] at h
  exact h.symm

theorem cellSub_na (v1 v2 v : Value) (h : cellSub v1 v2 = .ok v)
    (hna : v1 = .na ∨ v2 = .na) : v = .na := by
  cases v1 <;> cases v2 <;>
    simp only [cellSub, Except.ok.injEq] at h <;>
    first
      | exact h.symm
      | exact Except.noConfusion h
      | (rcases hna with hna | hna <;> exact Value.noConfusion hna)

/-! The ten claims. -/

/-- C1: for every valid input file set (one on which `process_data`
succeeds, with numeric budget data), every row of the returned
UnifiedTable has its Difference column equal to Tot minus TotExp,
exactly. -/
theorem C1_difference_exact (files : List RawFile) (t : Table) (r : Row)
    (a b : Int) (hok : process_data files = .ok t) (hr : r ∈ t.rows)
    (ha : getVal r "Tot" = .num a) (hb : getVal r "TotExp" = .num b) :
    getVal r "Difference" = .num (a - b) := by
  obtain ⟨-, v, hcv, hd⟩ := processRowSpec files t r hok hr
  rw [hd, cellSub_num _ _ v a b hcv ha hb]

/-- Witness for C1 at the spec's worked example: the first output row of
processing files A and B has Difference 100 - 80 = 20. -/
theorem C1_witness : getVal exOutRow1 "Difference" = .num 20 :=
  C1_difference_exact [exFileA, exFileB] exUnified exOutRow1 100 80
    (by decide) (by decide) (by decide) (by decide)

/-- C2: when every file before `g` processes cleanly and `g` lacks some
required columns, `process_data` fails on `g` no matter what files follow:
it returns None after reporting `g`'s name together with exactly the set
of required columns absent from `g` — no table is produced. -/
theorem C2_schema_error (pre : List RawFile) (g : RawFile)
    (rest : List RawFile) (dg : Table)
    (hpre : ∀ f ∈ pre, (cleanFile f).isSome)
    (hread : readFile g = .ok dg)
    (hmiss : missingColumns dg.cols ≠ []) :
    process_data (pre ++ g :: rest) = .retNone g.name (missingColumns dg.cols) ∧
    (missingColumns dg.cols).toFinset =
      required_columns.toFinset \ dg.cols.toFinset := by
  refine ⟨?_, missingColumns_toFinset dg.cols⟩
  unfold process_data
  obtain ⟨acc2, hacc⟩ := processAux_pre pre hpre (g :: rest) []
  rw [hacc]
  simp only [processAux, hread]
  rw [if_pos hmiss]

/-- Witness for C2: a valid file, then a file missing Sector, then another
valid file; the call reports the offending file and the missing set and
aborts. -/
theorem C2_witness :
    process_data ([exFileA] ++ exFileMissing :: [exFileB]) =
      .retNone exFileMissing.name (missingColumns exTableMissing.cols) ∧
    (missingColumns exTableMissing.cols).toFinset =
      required_columns.toFinset \ exTableMissing.cols.toFinset :=
  C2_schema_error [exFileA] exFileMissing [exFileB] exTableMissing
    (by decide) (by decide) (by decide)

/-- C3: whenever `process_data` returns a table, no row of it has a
missing Code (rows whose Code decoded as null/empty were silently
dropped). -/
theorem C3_no_null_code (files : List RawFile) (t : Table) (r : Row)
    (hok : process_data files = .ok t) (hr : r ∈ t.rows) :
    getVal r "Code" ≠ .na :=
  (processRowSpec files t r hok hr).1

/-- Witness for C3 at the spec's worked example. -/
theorem C3_witness : getVal exOutRow2 "Code" ≠ .na :=
  C3_no_null_code [exFileA, exFileB] exUnified exOutRow2
    (by decide) (by decide)

/-- Counterexample to C4 as stated: a schema-valid file whose single kept
row has a missing Tot cell processes successfully, and the returned row's
Difference is missing (NaN), not a valid numeric value. -/
theorem C4_counterexample :
    process_data [exFileNullTot] = .ok exNullTotOut ∧
    exNullTotRow ∈ exNullTotOut.rows ∧
    getVal exNullTotRow "Difference" = .na := by decide

/-- C4 as amended: every returned row has a non-null Code; its Difference
equals Tot minus TotExp when both are numeric, and is missing (NaN, by
NaN propagation) when Tot or TotExp is missing — not a valid value. -/
theorem C4_amended_invariant (files : List RawFile) (t : Table) (r : Row)
    (a b : Int) (hok : process_data files = .ok t) (hr : r ∈ t.rows) :
    getVal r "Code" ≠ .na ∧
    ((getVal r "Tot" = .na ∨ getVal r "TotExp" = .na) →
      getVal r "Difference" = .na) ∧
    (getVal r "Tot" = .num a → getVal r "TotExp" = .num b →
      getVal r "Difference" = .num (a - b)) := by
  obtain ⟨hcode, v, hcv, hd⟩ := processRowSpec files t r hok hr
  refine ⟨hcode, ?_, ?_⟩
  · intro hna
    rw [hd, cellSub_na _ _ v hcv hna]
  · intro ha hb
    rw [hd, cellSub_num _ _ v a b hcv ha hb]

/-- Witness for C4 as amended, at the missing-Tot file. -/
theorem C4_witness :
    getVal exNullTotRow "Code" ≠ .na ∧ getVal exNullTotRow "Difference" = .na :=
  ⟨(C4_amended_invariant [exFileNullTot] exNullTotOut exNullTotRow 0 0
      (by decide) (by decide)).1,
   (C4_amended_invariant [exFileNullTot] exNullTotOut exNullTotRow 0 0
      (by decide) (by decide)).2.1 (Or.inl (by decide))⟩

/-- Counterexample to C5 as stated: on an empty file sequence,
`process_data` does not return a table at all. -/
theorem C5_counterexample : isOkResult (process_data []) = false := by decide

/-- C5 as amended: on an empty file sequence `process_data` raises the
ValueError of `pd.concat` on an empty list (in the app the caller's guard
keeps the pipeline from ever being invoked with zero files). -/
theorem C5_empty_raises : process_data ([] : List RawFile) = .raised .valueError := by
  decide

/-- C6: whenever `process_data` returns a table, its rows are the
concatenation, in file-arrival order, of each file's decoded rows in
their original order minus the dropped null-Code rows (each augmented
with Difference). -/
theorem C6_order (files : List RawFile) (t : Table)
    (hok : process_data files = .ok t) :
    t.rows = (files.map fileRows).flatten := by
  have h := processAux_ok_rows files [] t hok
  simpa using h

/-- Witness for C6 at the spec's worked example. -/
theorem C6_witness : exUnified.rows = ([exFileA, exFileB].map fileRows).flatten :=
  C6_order [exFileA, exFileB] exUnified (by decide)

/-- Counterexample to C7 as stated: a file with text in its Tot column
makes `process_data` raise the subtraction's TypeError, but that error
identifies no offending column and no file. -/
theorem C7_counterexample :
    process_data [exFileBadType] = .raised (.typeError none) ∧
    identifiesSource (.typeError none) = false := by decide

/-- C7 as amended: if decoding produced text in Tot or TotExp on a kept
row, the Difference computation fails with a type error — but the error
carries no identification of the offending column or file. -/
theorem C7_amended_typeerror (f : RawFile) (fs : List RawFile) (df : Table)
    (hread : readFile f = .ok df)
    (hcols : missingColumns df.cols = [])
    (hbad : (dropNullCode df).rows.any rowHasStrOperand = true) :
    process_data (f :: fs) = .raised (.typeError none) := by
  unfold process_data
  simp only [processAux, hread]
  rw [if_neg (fun hc => hc hcols), addDifference_err_of_bad _ hbad]

/-- Witness for C7 as amended: the bad-typed file aborts the whole call
with the anonymous TypeError even though a valid file follows. -/
theorem C7_witness :
    process_data [exFileBadType, exFileA] = .raised (.typeError none) :=
  C7_amended_typeerror exFileBadType [exFileA] exTableBadType
    (by decide) (by decide) (by decide)

/-- Counterexample to C8 as stated: a file whose declared suffix is
`.txt` — neither of the two supported suffixes — does not fail with a
format error; it is decoded by the comma-separated reader and the call
succeeds. -/
theorem C8_counterexample : isOkResult (process_data [exFileTxt]) = true := by
  decide

/-- C8 as amended: dispatch inspects only whether the name ends in
`.xlsx`; any other suffix selects the comma-separated reader, and
`process_data` itself performs no suffix-legality check — a file with an
unsupported suffix but readable comma-separated content processes
successfully (the upload filter outside the pipeline is what restricts
suffixes to .xlsx/.csv). -/
theorem C8_amended_dispatch (n : String) (tb : Table)
    (hn : pyEndsWith n ".xlsx" = false)
    (hcols : missingColumns tb.cols = [])
    (hsub : exceptIsOk (addDifference (dropNullCode tb)) = true) :
    readFile ⟨n, Content.csv tb⟩ = .ok tb ∧
    isOkResult (process_data [⟨n, Content.csv tb⟩]) = true := by
  have hrf : readFile ⟨n, Content.csv tb⟩ = .ok tb := by
    simp [readFile, hn, read_csv]
  refine ⟨hrf, ?_⟩
  unfold process_data
  simp only [processAux, hrf]
  rw [if_neg (fun hc => hc hcols)]
  cases ha : addDifference (dropNullCode tb) with
  | error e =>
    rw [ha] at hsub
    simp [exceptIsOk] at hsub
  | ok df2 =>
    simp [processAux, pd_concat, isOkResult]

/-- Witness for C8 as amended at the `.txt`-named file. -/
theorem C8_witness :
    readFile ⟨"data.txt", Content.csv exTableA⟩ = .ok exTableA ∧
    isOkResult (process_data [⟨"data.txt", Content.csv exTableA⟩]) = true :=
  C8_amended_dispatch "data.txt" exTableA (by decide) (by decide) (by decide)

/-- Counterexample to C9 as stated: the Funding Status analysis mutates
the very table `process_data` returned — afterwards the table differs
from what was returned (a column was added). -/
theorem C9_counterexample :
    process_data [exFileA, exFileB] = .ok exUnified ∧
    addFundingStatus exUnified ≠ exUnified := by decide

/-- C9 as amended: the Funding Status analysis is the one downstream
mutation of the returned table, and it only adds or overwrites the
`Funding Status` column — every other column keeps its values, and no
column is removed. -/
theorem C9_amended_mutation (t : Table) (c : String)
    (hc : c ≠ "Funding Status") :
    (addFundingStatus t).rows.map (fun r => getVal r c) =
      t.rows.map (fun r => getVal r c) ∧
    t.cols ⊆ (addFundingStatus t).cols := by
  constructor
  · unfold addFundingStatus
    dsimp only
    rw [List.map_map]
    apply List.map_congr_left
    intro r hr
    exact getVal_setVal_ne _ _ _ _ hc
  · unfold addFundingStatus setCol
    dsimp only
    split
    · exact fun x hx => hx
    · exact List.subset_append_left _ _

/-- Witness for C9 as amended: the Difference column of the worked
example's table is untouched by the mutation. -/
theorem C9_witness :
    (addFundingStatus exUnified).rows.map (fun r => getVal r "Difference") =
      exUnified.rows.map (fun r => getVal r "Difference") ∧
    exUnified.cols ⊆ (addFundingStatus exUnified).cols :=
  C9_amended_mutation exUnified "Difference" (by decide)

/-- C10: in the funding-status classification a row is labelled Not
Funded exactly when its Tot compares equal to numeric 0; a row whose Tot
is missing (NaN) is therefore labelled Funded. -/
theorem C10_funding_status (t : Table) (r : Row)
    (hr : r ∈ (addFundingStatus t).rows) :
    (getVal r "Funding Status" = .str "Not Funded" ↔
      getVal r "Tot" = .num 0) ∧
    (getVal r "Tot" = .na → getVal r "Funding Status" = .str "Funded") := by
  unfold addFundingStatus at hr
  dsimp only at hr
  obtain ⟨r0, hr0, rfl⟩ := List.mem_map.mp hr
  have htot : getVal (setVal r0 "Funding Status"
      (fundingStatusCell (getVal r0 "Tot"))) "Tot" = getVal r0 "Tot" :=
    getVal_setVal_ne _ _ _ _ (by decide)
  have hfs : getVal (setVal r0 "Funding Status"
      (fundingStatusCell (getVal r0 "Tot"))) "Funding Status" =
      fundingStatusCell (getVal r0 "Tot") :=
    getVal_setVal_eq _ _ _
  rw [htot, hfs]
  unfold fundingStatusCell
  by_cases h0 : getVal r0 "Tot" = .num 0
  · rw [if_pos h0]
    refine ⟨⟨fun _ => h0, fun _ => rfl⟩, ?_⟩
    intro hna
    rw [h0] at hna
    exact absurd hna (by decide)
  · rw [if_neg h0]
    refine ⟨⟨fun hq => absurd hq (by decide), fun hq => absurd hq h0⟩, ?_⟩
    intro _
    rfl

/-- Witness for C10: the row whose Tot is missing is classified Funded. -/
theorem C10_witness : getVal exFsRow "Funding Status" = .str "Funded" :=
  (C10_funding_status exNullTotOut exFsRow (by decide)).2 (by decide)

end App
